import Mathlib

/-!
Verification of `src/extensions/git/src/historyProvider.ts` (GitHistoryProvider).

The provider is embedded shallowly: the `Repository` collaborator is a record of
pure response functions, and every provider operation returns its result paired
with the list of repository calls it issued (in program order), so that claims
of the form "does not call X" are statable.  JavaScript string falsiness
(`undefined`/`""`) is modelled explicitly where the source relies on it.
-/

namespace GitHistory

/-- An upstream tracking ref of a branch: remote name and branch name
(the fields of `HEAD.upstream` used by the provider). -/
structure UpstreamRef where
  remote : String
  name : String
  deriving Repr, DecidableEq

/-- The repository HEAD descriptor: optional branch name, optional resolved
commit hash, optional upstream (mirrors the fields of `repository.HEAD` the
provider reads). -/
structure HeadRef where
  name : Option String
  commit : Option String
  upstream : Option UpstreamRef
  deriving Repr, DecidableEq

/-- A commit record as returned by `repository.log`:
`{hash, parents, message, authorName, authorDate}`.  `authorDate` is the
epoch-milliseconds value (`Date.getTime()` of the source). -/
structure Commit where
  hash : String
  parents : List String
  message : String
  authorName : Option String
  authorDate : Option Nat
  deriving Repr, DecidableEq

/-- The id/label pair used both for a history item group and for its
upstream (`SourceControlHistoryItemGroup` shape). -/
structure HistoryItemRef where
  id : String
  label : String
  deriving Repr, DecidableEq

/-- Structure `SourceControlHistoryItemGroup`: the current branch context. -/
structure HistoryItemGroup where
  id : String
  label : String
  upstream : Option HistoryItemRef
  deriving Repr, DecidableEq

/-- Structure `SourceControlHistoryItem`: a commit item or the synthetic summary item.
`icon` holds the `ThemeIcon` identifier (`"account"` for commits, `"files"`
for the summary). -/
structure HistoryItem where
  id : String
  parentIds : List String
  label : String
  description : Option String
  icon : String
  timestamp : Option Nat
  deriving Repr, DecidableEq

/-- A resource URI: path plus query string (the two components the provider
manipulates via `uri.with({ query })`). -/
structure Uri where
  path : String
  query : String
  deriving Repr, DecidableEq

/-- Modelled from the spec: `toGitUri` lives in `src/extensions/git/src/uri.ts`,
which is not among the sources; the spec describes it only as "a
URI-construction helper keyed by ref" for addressing blob states.  We model its
result as the input uri tagged with the ref. -/
structure GitUri where
  uri : Uri
  ref : String
  deriving Repr, DecidableEq

/-- Modelled from the spec: the URI-construction helper keyed by ref. -/
def toGitUri (uri : Uri) (ref : String) : GitUri := ⟨uri, ref⟩

/-- A change record as returned by `repository.diffBetween`:
`{uri, originalUri, renameUri?}`. -/
structure Change where
  uri : Uri
  originalUri : Uri
  renameUri : Option Uri
  deriving Repr, DecidableEq

/-- Structure `SourceControlHistoryItemChange`: one changed file between two refs. -/
structure HistoryItemChange where
  uri : Uri
  originalUri : GitUri
  modifiedUri : GitUri
  renameUri : Option Uri
  deriving Repr, DecidableEq

/-- The result of `repository.getCommitCount`. -/
structure CommitCount where
  ahead : Nat
  behind : Nat
  deriving Repr, DecidableEq

/-- Options record of `repository.log` as built by the provider. -/
structure LogOptions where
  range : String
  sortByAuthorDate : Bool
  deriving Repr, DecidableEq

/-- The `limit` field of `SourceControlHistoryOptions`:
either a number or an object with an optional string `id`. -/
inductive HistoryLimit where
  | num (n : Int)
  | ref (id : Option String)
  deriving Repr, DecidableEq

/-- Structure `SourceControlHistoryOptions` (the fields the provider reads). -/
structure HistoryOptions where
  limit : Option HistoryLimit
  deriving Repr, DecidableEq

/-- One call issued to the repository collaborator. -/
inductive RepoCall where
  | log (opts : LogOptions)
  | diffBetween (ref1 ref2 : String)
  | diffBetweenShortStat (ref1 ref2 : String)
  | getDefaultBranch
  | getMergeBase (ref1 ref2 : String)
  | getCommitCount (range : String)
  deriving Repr, DecidableEq

/-- The repository collaborator, as a record of pure response functions.
`getDefaultBranch` yields the `name` field of the returned branch
(`undefined` when no default branch can be determined). -/
structure Repository where
  head : Option HeadRef
  log : LogOptions → List Commit
  diffBetween : String → String → List Change
  diffBetweenShortStat : String → String → String
  getDefaultBranch : Option String
  getMergeBase : String → String → String
  getCommitCount : String → CommitCount

/-- Reaction `onDidRunGitStatus`: given the repository HEAD and the previous
`currentHistoryItemGroup`, returns the new value of the field.  The guard
`!this.repository.HEAD?.name || !this.repository.HEAD?.commit` is JavaScript
truthiness: missing HEAD, missing field, or empty string each make it fire. -/
def onDidRunGitStatus (head : Option HeadRef) (current : Option HistoryItemGroup) :
    Option HistoryItemGroup :=
  match head with
  | none => current
  | some h =>
    match h.name, h.commit with
    | some n, some c =>
      if n = "" ∨ c = "" then current
      else
        some { id := "refs/heads/" ++ n, label := n,
               upstream := h.upstream.map (fun u =>
                 { id := "refs/remotes/" ++ u.remote ++ "/" ++ u.name,
                   label := u.remote ++ "/" ++ u.name }) }
    | _, _ => current

/-- The subject of a commit message: everything before the first newline, or
the whole list if there is none (`message.indexOf('\n')` / `substring`). -/
def subjectAux : List Char → List Char
  | [] => []
  | c :: cs => if c = '\n' then [] else c :: subjectAux cs

/-- The subject (first line) of a commit message. -/
def subject (message : String) : String := ⟨subjectAux message.data⟩

/-- Helper `getSummaryHistoryItem`: the synthetic summary item for a ref pair,
paired with the repository call it issues. -/
def getSummaryHistoryItem (repo : Repository) (ref1 ref2 : String) :
    HistoryItem × List RepoCall :=
  ({ id := ref1 ++ ".." ++ ref2, parentIds := [], icon := "files",
     label := "Changes", description := some (repo.diffBetweenShortStat ref1 ref2),
     timestamp := none },
   [RepoCall.diffBetweenShortStat ref1 ref2])

/-- The history item built from one commit record. -/
def commitToHistoryItem (commit : Commit) : HistoryItem :=
  { id := commit.hash, parentIds := commit.parents, label := subject commit.message,
    description := commit.authorName, icon := "account", timestamp := commit.authorDate }

/-- Operation `provideHistoryItems`: either the "Unsupported options." failure or the
item list, paired with the repository calls issued (the log fetch and the
summary short-stat fetch, listed in the order of the `Promise.all` array). -/
def provideHistoryItems (repo : Repository) (historyItemGroupId : String)
    (options : HistoryOptions) : Except String (List HistoryItem) × List RepoCall :=
  match options.limit with
  | some (HistoryLimit.num _) => (Except.error "Unsupported options.", [])
  | some (HistoryLimit.ref (some optionsRef)) =>
    let logOpts : LogOptions :=
      { range := optionsRef ++ ".." ++ historyItemGroupId, sortByAuthorDate := true }
    let commits := repo.log logOpts
    let summary := getSummaryHistoryItem repo optionsRef historyItemGroupId
    let historyItems := if commits.length = 0 then [] else [summary.1]
    (Except.ok (historyItems ++ commits.map commitToHistoryItem),
     RepoCall.log logOpts :: summary.2)
  | _ => (Except.error "Unsupported options.", [])

/-- Splitting helper: `breakOnDotDot l` splits `l` at the first occurrence of
`".."` into the prefix before it and, when the separator occurs, the remainder
after it (the semantics of JavaScript `indexOf('..')` / `split('..')`). -/
def breakOnDotDot : List Char → List Char × Option (List Char)
  | [] => ([], none)
  | [c] => ([c], none)
  | c :: c2 :: rest =>
    if c = '.' ∧ c2 = '.' then ([], some rest)
    else
      let p := breakOnDotDot (c2 :: rest)
      (c :: p.1, p.2)

/-- The ref pair `[ref1, ref2]` the provider destructures:
`historyItemId.split('..')` when the id contains `".."` (the first two
segments of the JavaScript split), else `(historyItemId + "^", historyItemId)`. -/
def historyItemRefs (historyItemId : String) : String × String :=
  match breakOnDotDot historyItemId.data with
  | (a, some rest) => (⟨a⟩, ⟨(breakOnDotDot rest).1⟩)
  | (_, none) => (historyItemId ++ "^", historyItemId)

/-- Operation `provideHistoryItemChanges`: the mapped change list paired with the
repository call issued. -/
def provideHistoryItemChanges (repo : Repository) (historyItemId : String) :
    List HistoryItemChange × List RepoCall :=
  let refs := historyItemRefs historyItemId
  let changes := repo.diffBetween refs.1 refs.2
  (changes.map (fun change =>
    { uri := { change.uri with query := "ref=" ++ historyItemId },
      originalUri := toGitUri change.originalUri refs.1,
      modifiedUri := toGitUri change.originalUri refs.2,
      renameUri := change.renameUri }),
   [RepoCall.diffBetween refs.1 refs.2])

/-- Operation `resolveHistoryItemGroupCommonAncestor`: the optional
(ancestor id, ahead, behind) triple paired with the repository calls issued.
`refId2 ?? (await getDefaultBranch()).name ?? ''` resolves a missing second
ref through the default branch; an empty second ref aborts before merge-base. -/
def resolveHistoryItemGroupCommonAncestor (repo : Repository) (refId1 : String)
    (refId2 : Option String) : Option (String × Nat × Nat) × List RepoCall :=
  let resolved : String × List RepoCall :=
    match refId2 with
    | some r => (r, [])
    | none => (repo.getDefaultBranch.getD "", [RepoCall.getDefaultBranch])
  let r2 := resolved.1
  if r2 = "" then (none, resolved.2)
  else
    let ancestor := repo.getMergeBase refId1 r2
    if ancestor = "" then (none, resolved.2 ++ [RepoCall.getMergeBase refId1 r2])
    else
      let commitCount := repo.getCommitCount (refId1 ++ "..." ++ r2)
      (some (ancestor, commitCount.ahead, commitCount.behind),
       resolved.2 ++ [RepoCall.getMergeBase refId1 r2,
                      RepoCall.getCommitCount (refId1 ++ "..." ++ r2)])

/-- Whether a character list contains the substring `".."`
(spec-side reading of `historyItemId.includes('..')`). -/
def hasDotDot : List Char → Bool
  | [] => false
  | [_] => false
  | c :: c2 :: rest => if c = '.' ∧ c2 = '.' then true else hasDotDot (c2 :: rest)


/-! ### Status refresh -/

/-- C2: after a status refresh with HEAD named `B`, committed, and upstream
`(R, N)`, the current history item group becomes
`{id := refs/heads/B, label := B, upstream := {id := refs/remotes/R/N, label := R/N}}`;
with no upstream, the group's upstream field is undefined. -/
theorem onDidRunGitStatus_named (B C R N : String) (cur : Option HistoryItemGroup)
    (hB : B ≠ "") (hC : C ≠ "") :
    onDidRunGitStatus (some ⟨some B, some C, some ⟨R, N⟩⟩) cur =
      some ⟨"refs/heads/" ++ B, B,
            some ⟨"refs/remotes/" ++ R ++ "/" ++ N, R ++ "/" ++ N⟩⟩ ∧
    onDidRunGitStatus (some ⟨some B, some C, none⟩) cur =
      some ⟨"refs/heads/" ++ B, B, none⟩ := by
  constructor <;> simp [onDidRunGitStatus, hB, hC]

/-- Witness for C2 at a concrete branch and upstream. -/
theorem onDidRunGitStatus_named_witness :
    "main" ≠ "" ∧ "c0ffee" ≠ "" ∧
    (onDidRunGitStatus (some ⟨some "main", some "c0ffee", some ⟨"origin", "dev"⟩⟩) none =
        some ⟨"refs/heads/" ++ "main", "main",
              some ⟨"refs/remotes/" ++ "origin" ++ "/" ++ "dev", "origin" ++ "/" ++ "dev"⟩⟩ ∧
      onDidRunGitStatus (some ⟨some "main", some "c0ffee", none⟩) none =
        some ⟨"refs/heads/" ++ "main", "main", none⟩) :=
  ⟨by decide, by decide,
   onDidRunGitStatus_named "main" "c0ffee" "origin" "dev" none (by decide) (by decide)⟩

/-- C6: a status refresh whose HEAD has no name or no resolved commit leaves
the current history item group unchanged. -/
theorem onDidRunGitStatus_noop (head : Option HeadRef) (cur : Option HistoryItemGroup)
    (h : head.bind HeadRef.name = none ∨ head.bind HeadRef.commit = none) :
    onDidRunGitStatus head cur = cur := by
  cases head with
  | none => rfl
  | some hd =>
    obtain ⟨n, c, u⟩ := hd
    cases n <;> cases c <;> simp_all [onDidRunGitStatus]

/-- Witness for C6: a detached HEAD (no name) leaves a prior group untouched. -/
theorem onDidRunGitStatus_noop_witness :
    ((some ⟨none, some "c0ffee", none⟩ : Option HeadRef).bind HeadRef.name = none ∨
      (some ⟨none, some "c0ffee", none⟩ : Option HeadRef).bind HeadRef.commit = none) ∧
    onDidRunGitStatus (some ⟨none, some "c0ffee", none⟩)
        (some ⟨"refs/heads/old", "old", none⟩) =
      some ⟨"refs/heads/old", "old", none⟩ :=
  ⟨by decide,
   onDidRunGitStatus_noop (some ⟨none, some "c0ffee", none⟩)
     (some ⟨"refs/heads/old", "old", none⟩) (by decide)⟩

/-! ### Common ancestor resolution -/

/-- C10: an explicitly empty second ref makes
`resolveHistoryItemGroupCommonAncestor` return `undefined` with no repository
call at all. -/
theorem resolveCommonAncestor_emptyRef (repo : Repository) (refId1 : String) :
    resolveHistoryItemGroupCommonAncestor repo refId1 (some "") = (none, []) := rfl

/-- C7: with `refId2` omitted and no default branch name determinable, the
resolution returns `undefined`, having called only `getDefaultBranch` and in
particular never `getMergeBase`. -/
theorem resolveCommonAncestor_noDefaultBranch (repo : Repository) (refId1 : String)
    (h : repo.getDefaultBranch.getD "" = "") :
    resolveHistoryItemGroupCommonAncestor repo refId1 none =
      (none, [RepoCall.getDefaultBranch]) ∧
    ∀ a b, RepoCall.getMergeBase a b ∉
      (resolveHistoryItemGroupCommonAncestor repo refId1 none).2 := by
  constructor
  · simp [resolveHistoryItemGroupCommonAncestor, h]
  · intro a b
    simp [resolveHistoryItemGroupCommonAncestor, h]

/-- Concrete repository for the C7 witness: no default branch. -/
def repoC7 : Repository :=
  { head := none, log := fun _ => [], diffBetween := fun _ _ => [],
    diffBetweenShortStat := fun _ _ => "", getDefaultBranch := none,
    getMergeBase := fun _ _ => "m", getCommitCount := fun _ => ⟨0, 0⟩ }

/-- Witness for C7 on a repository with no default branch. -/
theorem resolveCommonAncestor_noDefaultBranch_witness :
    repoC7.getDefaultBranch.getD "" = "" ∧
    (resolveHistoryItemGroupCommonAncestor repoC7 "topic" none =
        (none, [RepoCall.getDefaultBranch]) ∧
      ∀ a b, RepoCall.getMergeBase a b ∉
        (resolveHistoryItemGroupCommonAncestor repoC7 "topic" none).2) :=
  ⟨by decide, resolveCommonAncestor_noDefaultBranch repoC7 "topic" (by decide)⟩

/-- C8: with a non-empty second ref, an empty merge-base result yields
`undefined` with no `getCommitCount` call, while a non-empty merge-base yields
the (ancestor, ahead, behind) triple with counts taken from
`getCommitCount` over `refId1...refId2`. -/
theorem resolveCommonAncestor_mergeBase (repo : Repository) (r1 r2 : String)
    (h : r2 ≠ "") :
    (repo.getMergeBase r1 r2 = "" →
      resolveHistoryItemGroupCommonAncestor repo r1 (some r2) =
        (none, [RepoCall.getMergeBase r1 r2])) ∧
    (repo.getMergeBase r1 r2 ≠ "" →
      resolveHistoryItemGroupCommonAncestor repo r1 (some r2) =
        (some (repo.getMergeBase r1 r2,
               (repo.getCommitCount (r1 ++ "..." ++ r2)).ahead,
               (repo.getCommitCount (r1 ++ "..." ++ r2)).behind),
         [RepoCall.getMergeBase r1 r2,
          RepoCall.getCommitCount (r1 ++ "..." ++ r2)])) := by
  constructor <;> intro hmb <;> simp [resolveHistoryItemGroupCommonAncestor, h, hmb]

/-- Concrete repository for the C8 witness: merge-base is empty exactly for
first ref `"x"`. -/
def repoC8 : Repository :=
  { head := none, log := fun _ => [], diffBetween := fun _ _ => [],
    diffBetweenShortStat := fun _ _ => "", getDefaultBranch := none,
    getMergeBase := fun a _ => if a = "x" then "" else "anc",
    getCommitCount := fun _ => ⟨2, 3⟩ }

/-- Witness for C8: both the empty-merge-base and the successful branch at
concrete refs. -/
theorem resolveCommonAncestor_mergeBase_witness :
    ("y" ≠ "" ∧ repoC8.getMergeBase "x" "y" = "" ∧
      resolveHistoryItemGroupCommonAncestor repoC8 "x" (some "y") =
        (none, [RepoCall.getMergeBase "x" "y"])) ∧
    ("y" ≠ "" ∧ repoC8.getMergeBase "z" "y" ≠ "" ∧
      resolveHistoryItemGroupCommonAncestor repoC8 "z" (some "y") =
        (some (repoC8.getMergeBase "z" "y",
               (repoC8.getCommitCount ("z" ++ "..." ++ "y")).ahead,
               (repoC8.getCommitCount ("z" ++ "..." ++ "y")).behind),
         [RepoCall.getMergeBase "z" "y",
          RepoCall.getCommitCount ("z" ++ "..." ++ "y")])) :=
  ⟨⟨by decide, by decide,
    (resolveCommonAncestor_mergeBase repoC8 "x" "y" (by decide)).1 (by decide)⟩,
   ⟨by decide, by decide,
    (resolveCommonAncestor_mergeBase repoC8 "z" "y" (by decide)).2 (by decide)⟩⟩

/-! ### Providing history items -/

/-- C3: any options whose limit is numeric, missing, or lacking a string id
make `provideHistoryItems` fail with "Unsupported options." before issuing any
repository call. -/
theorem provideHistoryItems_unsupported (repo : Repository) (groupId : String)
    (options : HistoryOptions)
    (h : ∀ id, options.limit ≠ some (HistoryLimit.ref (some id))) :
    provideHistoryItems repo groupId options =
      (Except.error "Unsupported options.", []) := by
  obtain ⟨lim⟩ := options
  match lim with
  | none => rfl
  | some (HistoryLimit.num n) => rfl
  | some (HistoryLimit.ref none) => rfl
  | some (HistoryLimit.ref (some id)) => exact absurd rfl (h id)

/-- Concrete repository for the C3 witness. -/
def repoC3 : Repository :=
  { head := none, log := fun _ => [], diffBetween := fun _ _ => [],
    diffBetweenShortStat := fun _ _ => "", getDefaultBranch := none,
    getMergeBase := fun _ _ => "", getCommitCount := fun _ => ⟨0, 0⟩ }

/-- Witness for C3 at the numeric limit 5. -/
theorem provideHistoryItems_unsupported_witness :
    (∀ id, (⟨some (HistoryLimit.num 5)⟩ : HistoryOptions).limit ≠
        some (HistoryLimit.ref (some id))) ∧
    provideHistoryItems repoC3 "G" ⟨some (HistoryLimit.num 5)⟩ =
      (Except.error "Unsupported options.", []) :=
  ⟨fun id => by simp,
   provideHistoryItems_unsupported repoC3 "G" ⟨some (HistoryLimit.num 5)⟩
     (fun id => by simp)⟩

/-- The subject computation is "take characters while not a newline". -/
theorem subjectAux_eq_takeWhile (l : List Char) :
    subjectAux l = l.takeWhile (fun c => c != '\n') := by
  induction l with
  | nil => rfl
  | cons c cs ih =>
    by_cases hc : c = '\n'
    · subst hc
      simp [subjectAux, List.takeWhile_cons]
    · simp [subjectAux, List.takeWhile_cons, hc, ih]

/-- C1: with a string-id limit `R` and a non-empty commit log for `R..G`, the
result is the summary item (id `R..G`, label "Changes", description the short
diff stat for `(R, G)`) followed by one item per commit in log order, carrying
hash, parents, author name, and the first line of the message as label; in
total the log length plus one items. -/
theorem provideHistoryItems_items (repo : Repository) (G R : String)
    (h : repo.log { range := R ++ ".." ++ G, sortByAuthorDate := true } ≠ []) :
    (provideHistoryItems repo G ⟨some (HistoryLimit.ref (some R))⟩).1 =
      Except.ok
        ({ id := R ++ ".." ++ G, parentIds := [], label := "Changes",
           description := some (repo.diffBetweenShortStat R G), icon := "files",
           timestamp := none } ::
         (repo.log { range := R ++ ".." ++ G, sortByAuthorDate := true }).map
           (fun commit =>
             { id := commit.hash, parentIds := commit.parents,
               label := ⟨commit.message.data.takeWhile (fun c => c != '\n')⟩,
               description := commit.authorName, icon := "account",
               timestamp := commit.authorDate })) ∧
    ((provideHistoryItems repo G ⟨some (HistoryLimit.ref (some R))⟩).1.map
        List.length) =
      Except.ok
        ((repo.log { range := R ++ ".." ++ G, sortByAuthorDate := true }).length + 1) := by
  have hmap : commitToHistoryItem = fun commit =>
      ({ id := commit.hash, parentIds := commit.parents,
         label := ⟨commit.message.data.takeWhile (fun c => c != '\n')⟩,
         description := commit.authorName, icon := "account",
         timestamp := commit.authorDate } : HistoryItem) := by
    funext commit
    simp [commitToHistoryItem, subject, subjectAux_eq_takeWhile]
  have hlen : (repo.log { range := R ++ ".." ++ G, sortByAuthorDate := true }).length ≠ 0 := by
    simpa [List.length_eq_zero] using h
  constructor
  · simp [provideHistoryItems, getSummaryHistoryItem, hlen, hmap]
  · simp [provideHistoryItems, getSummaryHistoryItem, hlen, Except.map]

/-- Concrete repository for the C1 witness: a two-commit log. -/
def repoC1 : Repository :=
  { head := none,
    log := fun _ =>
      [{ hash := "h1", parents := ["p1"], message := "subject one\nbody",
         authorName := some "alice", authorDate := some 5 },
       { hash := "h2", parents := ["h1", "p2"], message := "subject two",
         authorName := none, authorDate := none }],
    diffBetween := fun _ _ => [],
    diffBetweenShortStat := fun _ _ => "2 files changed",
    getDefaultBranch := none, getMergeBase := fun _ _ => "",
    getCommitCount := fun _ => ⟨0, 0⟩ }

/-- Witness for C1 on the two-commit repository. -/
theorem provideHistoryItems_items_witness :
    repoC1.log { range := "R" ++ ".." ++ "G", sortByAuthorDate := true } ≠ [] ∧
    ((provideHistoryItems repoC1 "G" ⟨some (HistoryLimit.ref (some "R"))⟩).1 =
      Except.ok
        ({ id := "R" ++ ".." ++ "G", parentIds := [], label := "Changes",
           description := some (repoC1.diffBetweenShortStat "R" "G"), icon := "files",
           timestamp := none } ::
         (repoC1.log { range := "R" ++ ".." ++ "G", sortByAuthorDate := true }).map
           (fun commit =>
             { id := commit.hash, parentIds := commit.parents,
               label := ⟨commit.message.data.takeWhile (fun c => c != '\n')⟩,
               description := commit.authorName, icon := "account",
               timestamp := commit.authorDate })) ∧
     ((provideHistoryItems repoC1 "G" ⟨some (HistoryLimit.ref (some "R"))⟩).1.map
        List.length) =
      Except.ok
        ((repoC1.log { range := "R" ++ ".." ++ "G", sortByAuthorDate := true }).length + 1)) :=
  ⟨by decide, provideHistoryItems_items repoC1 "G" "R" (by decide)⟩

/-- C5: the result is the empty list exactly when the commit log for `R..G` is
empty, and any returned item list contains the summary item exactly when that
log is non-empty. -/
theorem provideHistoryItems_summary_iff (repo : Repository) (G R : String) :
    ((provideHistoryItems repo G ⟨some (HistoryLimit.ref (some R))⟩).1 =
        Except.ok [] ↔
      repo.log { range := R ++ ".." ++ G, sortByAuthorDate := true } = []) ∧
    (∀ items,
      (provideHistoryItems repo G ⟨some (HistoryLimit.ref (some R))⟩).1 =
        Except.ok items →
      ((getSummaryHistoryItem repo R G).1 ∈ items ↔
        repo.log { range := R ++ ".." ++ G, sortByAuthorDate := true } ≠ [])) := by
  by_cases h : repo.log { range := R ++ ".." ++ G, sortByAuthorDate := true } = []
  · constructor
    · simp [provideHistoryItems, h]
    · intro items hit
      simp [provideHistoryItems, h] at hit
      subst hit
      simp [h]
  · have hlen : (repo.log { range := R ++ ".." ++ G, sortByAuthorDate := true }).length ≠ 0 := by
      simpa [List.length_eq_zero] using h
    constructor
    · simp [provideHistoryItems, hlen, h]
    · intro items hit
      simp [provideHistoryItems, hlen] at hit
      subst hit
      simp [h]

/-- Concrete repository for the C5 witness: an empty log. -/
def repoC5 : Repository :=
  { head := none, log := fun _ => [], diffBetween := fun _ _ => [],
    diffBetweenShortStat := fun _ _ => "stat", getDefaultBranch := none,
    getMergeBase := fun _ _ => "", getCommitCount := fun _ => ⟨0, 0⟩ }

/-- Witness for C5 on the empty-log repository. -/
theorem provideHistoryItems_summary_iff_witness :
    ((provideHistoryItems repoC5 "G" ⟨some (HistoryLimit.ref (some "R"))⟩).1 =
        Except.ok [] ↔
      repoC5.log { range := "R" ++ ".." ++ "G", sortByAuthorDate := true } = []) ∧
    ((getSummaryHistoryItem repoC5 "R" "G").1 ∈ ([] : List HistoryItem) ↔
      repoC5.log { range := "R" ++ ".." ++ "G", sortByAuthorDate := true } ≠ []) :=
  ⟨(provideHistoryItems_summary_iff repoC5 "G" "R").1,
   (provideHistoryItems_summary_iff repoC5 "G" "R").2 [] (by rfl)⟩

/-! ### History item changes -/

/-- Rebuilding a string from its character data is the identity. -/
theorem mk_data (s : String) : String.mk s.data = s := rfl

/-- A list without the `".."` separator is returned whole by `breakOnDotDot`. -/
theorem breakOnDotDot_eq_of_no_sep : ∀ (l : List Char), hasDotDot l = false →
    breakOnDotDot l = (l, none)
  | [], _ => rfl
  | [_], _ => rfl
  | c :: c2 :: rest, h => by
    have hcc : ¬(c = '.' ∧ c2 = '.') := by
      intro hcc
      simp [hasDotDot, hcc] at h
    have ih := breakOnDotDot_eq_of_no_sep (c2 :: rest) (by simpa [hasDotDot, hcc] using h)
    simp [breakOnDotDot, hcc, ih]

/-- Splitting at an unambiguous first `".."` separator: when `a` extended by a
dot still has no separator, the prefix before the separator is exactly `a`. -/
theorem breakOnDotDot_append : ∀ (a b : List Char),
    hasDotDot (a ++ ['.']) = false →
    breakOnDotDot (a ++ '.' :: '.' :: b) = (a, some b)
  | [], b, _ => by simp [breakOnDotDot]
  | [c], b, h => by
    have hc : ¬(c = '.' ∧ ('.' : Char) = '.') := by
      intro hcc
      simp [hasDotDot, hcc] at h
    have hc2 : ¬c = '.' := fun hh => hc ⟨hh, rfl⟩
    simp [breakOnDotDot, hc2]
  | c :: d :: a, b, h => by
    have hcd : ¬(c = '.' ∧ d = '.') := by
      intro hcc
      simp [hasDotDot, hcc] at h
    have ih := breakOnDotDot_append (d :: a) b (by simpa [hasDotDot, hcd] using h)
    simp only [List.cons_append] at ih ⊢
    simp [breakOnDotDot, hcd, ih]

/-- C4: a history item id without `".."` makes `provideHistoryItemChanges`
query the diff between `id^` and `id`; an id of the shape `a..b` (with `a..`
not starting the separator earlier and `b` separator-free) makes it query the
diff between `a` and `b` directly. -/
theorem provideHistoryItemChanges_refs (repo : Repository) (id a b : String) :
    (hasDotDot id.data = false →
      (provideHistoryItemChanges repo id).2 =
        [RepoCall.diffBetween (id ++ "^") id]) ∧
    (hasDotDot (a.data ++ ['.']) = false → hasDotDot b.data = false →
      (provideHistoryItemChanges repo (a ++ ".." ++ b)).2 =
        [RepoCall.diffBetween a b]) := by
  constructor
  · intro h
    simp [provideHistoryItemChanges, historyItemRefs, breakOnDotDot_eq_of_no_sep _ h]
  · intro ha hb
    have hdata : (a ++ ".." ++ b).data = a.data ++ '.' :: '.' :: b.data := by
      simp [String.data_append]
    have h1 := breakOnDotDot_append a.data b.data ha
    have h2 := breakOnDotDot_eq_of_no_sep b.data hb
    simp [provideHistoryItemChanges, historyItemRefs, hdata, h1, h2, mk_data]

/-- Concrete repository for the C4 witness. -/
def repoC4 : Repository :=
  { head := none, log := fun _ => [], diffBetween := fun _ _ => [],
    diffBetweenShortStat := fun _ _ => "", getDefaultBranch := none,
    getMergeBase := fun _ _ => "", getCommitCount := fun _ => ⟨0, 0⟩ }

/-- Witness for C4 at a plain commit id and at a two-ref range id. -/
theorem provideHistoryItemChanges_refs_witness :
    (hasDotDot "abc123".data = false ∧
      (provideHistoryItemChanges repoC4 "abc123").2 =
        [RepoCall.diffBetween ("abc123" ++ "^") "abc123"]) ∧
    (hasDotDot ("a".data ++ ['.']) = false ∧ hasDotDot "b".data = false ∧
      (provideHistoryItemChanges repoC4 ("a" ++ ".." ++ "b")).2 =
        [RepoCall.diffBetween "a" "b"]) :=
  ⟨⟨by decide, (provideHistoryItemChanges_refs repoC4 "abc123" "a" "b").1 (by decide)⟩,
   ⟨by decide, by decide,
    (provideHistoryItemChanges_refs repoC4 "x" "a" "b").2 (by decide) (by decide)⟩⟩

/-- C9: each produced change builds both blob URIs from the change's
original-state uri — they coincide up to the ref (ref1 for the original, ref2
for the modified state) — while the change's current uri only feeds the `uri`
field, annotated with the query `ref=<itemId>`. -/
theorem provideHistoryItemChanges_uris (repo : Repository) (id : String) :
    ∀ (i : Nat) (c : Change),
      (repo.diffBetween (historyItemRefs id).1 (historyItemRefs id).2)[i]? = some c →
      (provideHistoryItemChanges repo id).1[i]? = some
        { uri := { c.uri with query := "ref=" ++ id },
          originalUri := toGitUri c.originalUri (historyItemRefs id).1,
          modifiedUri := toGitUri c.originalUri (historyItemRefs id).2,
          renameUri := c.renameUri } ∧
      ((provideHistoryItemChanges repo id).1[i]?.map fun hic => hic.originalUri.uri) =
        some c.originalUri ∧
      ((provideHistoryItemChanges repo id).1[i]?.map fun hic => hic.modifiedUri.uri) =
        some c.originalUri := by
  intro i c hc
  refine ⟨?_, ?_, ?_⟩ <;>
    simp [provideHistoryItemChanges, List.getElem?_map, hc, toGitUri]

/-- Concrete repository for the C9 witness: one renamed-file change. -/
def repoC9 : Repository :=
  { head := none, log := fun _ => [],
    diffBetween := fun _ _ =>
      [{ uri := ⟨"/new/path", ""⟩, originalUri := ⟨"/old/path", ""⟩,
         renameUri := some ⟨"/old/path", ""⟩ }],
    diffBetweenShortStat := fun _ _ => "", getDefaultBranch := none,
    getMergeBase := fun _ _ => "", getCommitCount := fun _ => ⟨0, 0⟩ }

/-- Witness for C9 on the renamed-file change at index 0. -/
theorem provideHistoryItemChanges_uris_witness :
    (repoC9.diffBetween (historyItemRefs "abc").1 (historyItemRefs "abc").2)[0]? =
      some { uri := ⟨"/new/path", ""⟩, originalUri := ⟨"/old/path", ""⟩,
             renameUri := some ⟨"/old/path", ""⟩ } ∧
    ((provideHistoryItemChanges repoC9 "abc").1[0]? = some
        { uri := { Uri.mk "/new/path" "" with query := "ref=" ++ "abc" },
          originalUri := toGitUri ⟨"/old/path", ""⟩ (historyItemRefs "abc").1,
          modifiedUri := toGitUri ⟨"/old/path", ""⟩ (historyItemRefs "abc").2,
          renameUri := some ⟨"/old/path", ""⟩ } ∧
      ((provideHistoryItemChanges repoC9 "abc").1[0]?.map fun hic => hic.originalUri.uri) =
        some (Uri.mk "/old/path" "") ∧
      ((provideHistoryItemChanges repoC9 "abc").1[0]?.map fun hic => hic.modifiedUri.uri) =
        some (Uri.mk "/old/path" "")) :=
  ⟨by decide,
   provideHistoryItemChanges_uris repoC9 "abc" 0
     { uri := ⟨"/new/path", ""⟩, originalUri := ⟨"/old/path", ""⟩,
       renameUri := some ⟨"/old/path", ""⟩ } (by decide)⟩

end GitHistory
